import Mathlib

/-!
Verification of the decision core of the Smart Parking System
(Integrated_parkingSlotAllocation_and_pathGuidance, src/src/App.js).

The JavaScript numeric type is modelled by `ℚ` wherever the program only
adds, multiplies, compares and floors (all such values in this program are
exact in binary floating point or only ever compared); the single use of
`Math.sqrt` (`calculateDistanceFromEntrance`) is modelled by `Real.sqrt`.
The `Slot` record is polymorphic in the type of its `distance_from_entrance`
field so that the allocation engine can be stated over any linear order:
the detection pipeline instantiates it at `ℝ`, concrete witnesses at `ℚ`.
`Math.random()` draws are modelled by injected streams `ℕ → ℚ` constrained
to `[0, 1)`, matching the documented contract of `Math.random`.
JavaScript objects used as dictionaries (`pathVehicleIntensities`) are
modelled as functions `ℕ → Option ℤ`; `Array.prototype.sort` (stable since
ES2019) is modelled as a stable insertion sort driven by the very same
comparator the source passes to it.
-/

namespace SmartParking

/-! ## Generic list helpers embedding JavaScript array operations -/

/-- Embeds `Array.prototype.map((x, i) => ...)` starting at index `i`. -/
def jsMapIdxFrom (f : ℕ → α → β) : ℕ → List α → List β
  | _, [] => []
  | i, a :: l => f i a :: jsMapIdxFrom f (i + 1) l

/-- Embeds `Array.prototype.map((x, i) => ...)`. -/
def jsMapIdx (f : ℕ → α → β) (l : List α) : List β :=
  jsMapIdxFrom f 0 l

/-- One insertion step of the stable sort modelling `Array.prototype.sort`:
`a` is placed before the first element `b` with `cmp a b <= 0`. -/
def jsSortInsert (cmp : α → α → ℚ) (a : α) : List α → List α
  | [] => [a]
  | b :: l => if cmp a b ≤ 0 then a :: b :: l else b :: jsSortInsert cmp a l

/-- Stable sort modelling `Array.prototype.sort(cmp)` (insertion sort). -/
def jsSort (cmp : α → α → ℚ) : List α → List α
  | [] => []
  | a :: l => jsSortInsert cmp a (jsSort cmp l)

/-- Embeds `String.prototype.includes`: `sub` occurs contiguously in `s`. -/
def jsIncludes (s sub : String) : Bool :=
  s.data.tails.any (fun t => sub.data.isPrefixOf t)

/-- Embeds `String.prototype.toLowerCase` (character-wise lower-casing;
every label this program compares is basic latin). -/
def jsToLowerCase (s : String) : String :=
  ⟨s.data.map Char.toLower⟩

/-- Numeric value of a list of decimal digit characters. -/
def jsDigitsVal (ds : List Char) : ℕ :=
  ds.foldl (fun n c => n * 10 + (c.toNat - 48)) 0

/-- Embeds `parseInt` on decimal input: skip leading whitespace, read an
optional sign and a maximal run of digits; `none` models `NaN`.
(The `0x`-prefix branch of `parseInt` is irrelevant to this program.) -/
def jsParseInt (s : String) : Option ℤ :=
  let cs := s.data.dropWhile (fun c => c = ' ' || c = '\t' || c = '\n' || c = '\r')
  let signed : ℤ × List Char :=
    match cs with
    | '-' :: rest => (-1, rest)
    | '+' :: rest => (1, rest)
    | rest => (1, rest)
  let digits := signed.2.takeWhile Char.isDigit
  if digits = [] then none
  else some (signed.1 * jsDigitsVal digits)

/-- Embeds `parseInt(value) || 0` (both `NaN` and `0` collapse to `0`). -/
def jsParseIntOr0 (s : String) : ℤ :=
  (jsParseInt s).getD 0

/-! ## Data model -/

/-- One raw prediction of the slot-occupancy detector: bounding-box centre
and size in pixel units, confidence, and the detector's class label
(source field `class`, a Lean keyword, rendered `class_label`). -/
structure Detection where
  x : ℚ
  y : ℚ
  width : ℚ
  height : ℚ
  confidence : ℚ
  class_label : String
  deriving DecidableEq, Repr

/-- Source-image dimensions optionally reported by the detection service
(`result.image`). -/
structure ImageDims where
  width : ℚ
  height : ℚ
  deriving DecidableEq, Repr

/-- A normalized parking slot, as built in `detectParkingSlots`.
`α` is the numeric type of `distance_from_entrance` (`ℝ` in the pipeline,
any linear order in the allocation theorems). -/
structure Slot (α : Type) where
  slot_number : ℕ
  status : String
  row : ℕ
  col : ℕ
  x : ℚ
  y : ℚ
  width : ℚ
  height : ℚ
  confidence : ℚ
  original_class : String
  is_corner : Bool
  is_edge : Bool
  distance_from_entrance : α
  deriving DecidableEq, Repr

/-- Result of the vehicle-type detection (`detectVehicleType`, success case). -/
structure VehicleDetection where
  vehicle_type : String
  confidence : ℚ
  x : ℚ
  y : ℚ
  width : ℚ
  height : ℚ
  original_class : String
  deriving DecidableEq, Repr

/-- A synthetic candidate path (`generatePathsToSlot`); `vehicleIntensity`
and `score` start unset (`null`). -/
structure Path where
  id : ℕ
  name : String
  distance : ℚ
  tJunctions : ℚ
  vehicleIntensity : Option ℚ
  score : Option ℚ
  deriving DecidableEq, Repr

/-- The record returned by `roboflowAPI.detectParkingSlots` on success. -/
structure DetectionResult where
  total_slots : ℕ
  empty_slots : List ℕ
  occupied_slots : List ℕ
  slots : List (Slot ℝ)
  detection_image : Option ImageDims

/-! ## Helper functions of the source -/

/-- `isEmptySlot`: the class label case-insensitively contains one of the
empty-slot keywords. -/
def isEmptySlot (className : String) : Bool :=
  ["empty", "parking spot", "available", "free"].any
    (fun e => jsIncludes (jsToLowerCase className) (jsToLowerCase e))

/-- The comparator passed to `predictions.sort` in `sortSlotsSpatiallly`:
same row when `|a.y - b.y| < 50`, then by `x`; distinct rows by `y`. -/
def sortCmp (a b : Detection) : ℚ :=
  if |a.y - b.y| < 50 then a.x - b.x else a.y - b.y

/-- `sortSlotsSpatiallly` (source spelling): spatial sort of the raw
predictions. -/
def sortSlotsSpatiallly (predictions : List Detection) : List Detection :=
  jsSort sortCmp predictions

/-- `isCornerSlot`: first-or-last row and first-or-last column of the
8-wide virtual grid, with `totalRows = ceil(totalSlots / 8)`. -/
def isCornerSlot (index totalSlots : ℕ) : Bool :=
  let slotsPerRow := 8
  let row := index / slotsPerRow
  let col := index % slotsPerRow
  let totalRows := (totalSlots + slotsPerRow - 1) / slotsPerRow
  ((row == 0) || ((row : ℤ) == (totalRows : ℤ) - 1)) &&
    ((col == 0) || (col == slotsPerRow - 1))

/-- `isEdgeSlot`: any boundary row or column of the 8-wide virtual grid. -/
def isEdgeSlot (index totalSlots : ℕ) : Bool :=
  let slotsPerRow := 8
  let row := index / slotsPerRow
  let col := index % slotsPerRow
  let totalRows := (totalSlots + slotsPerRow - 1) / slotsPerRow
  (row == 0) || ((row : ℤ) == (totalRows : ℤ) - 1) || (col == 0) ||
    (col == slotsPerRow - 1)

/-- `calculateDistanceFromEntrance`: Euclidean distance from the detection
centre to the assumed entrance (bottom centre of the image, falling back to
`(640, 480)` when the dimension is absent or `0`, i.e. falsy). -/
noncomputable def calculateDistanceFromEntrance (prediction : Detection)
    (imageData : Option ImageDims) : ℝ :=
  let entranceX : ℚ := match imageData with
    | some d => if d.width ≠ 0 then d.width / 2 else 640
    | none => 640
  let entranceY : ℚ := match imageData with
    | some d => if d.height ≠ 0 then d.height else 480
    | none => 480
  let dx : ℚ := prediction.x - entranceX
  let dy : ℚ := prediction.y - entranceY
  Real.sqrt ((dx : ℝ) * dx + (dy : ℝ) * dy)

/-- The ordered mapping table of `mapClassToVehicleType` (JavaScript object
literals iterate string keys in insertion order). -/
def classMapping : List (String × String) :=
  [("car", "car"), ("sedan", "car"), ("hatchback", "car"), ("suv", "car"),
   ("truck", "truck"), ("pickup", "truck"),
   ("bus", "bus"),
   ("motorcycle", "motorcycle"), ("motorbike", "motorcycle"),
   ("bike", "motorcycle"), ("scooter", "motorcycle"),
   ("van", "van"), ("minivan", "van")]

/-- `mapClassToVehicleType`: first key of `classMapping` contained in the
lower-cased label wins; default `car`. -/
def mapClassToVehicleType (detectedClass : String) : String :=
  let lowerClass := jsToLowerCase detectedClass
  match classMapping.find? (fun kv => jsIncludes lowerClass kv.1) with
  | some kv => kv.2
  | none => "car"

/-- One entry of the `vehicleRules` table. -/
structure AllocRule where
  priority : String
  allow_middle : Bool
  deriving DecidableEq, Repr

/-- The `vehicleRules` lookup (`undefined` modelled as `none`). -/
def vehicleRules (vt : String) : Option AllocRule :=
  if vt = "car" then some ⟨"closest", true⟩
  else if vt = "motorcycle" then some ⟨"furthest", true⟩
  else if vt = "truck" then some ⟨"corner_edge", false⟩
  else if vt = "bus" then some ⟨"corner_edge", false⟩
  else if vt = "van" then some ⟨"corner_edge", false⟩
  else none

/-- The slot-selection core of `detectVehicleAndAllocate` (source lines
301-323): the three `reduce` passes and the corner/edge fallback.
JavaScript `[].reduce` without seed throws; that is modelled as `none`,
a branch no claim exercises (callers guard non-emptiness). -/
def allocateSlot {α : Type} [LinearOrder α] (vt : String)
    (emptySlots : List (Slot α)) : Option (Slot α) :=
  match vehicleRules vt with
  | none => none
  | some rules =>
    if rules.priority = "closest" then
      match emptySlots with
      | [] => none
      | h :: t => some (t.foldl
          (fun closest slot =>
            if slot.distance_from_entrance < closest.distance_from_entrance
            then slot else closest) h)
    else if rules.priority = "furthest" then
      match emptySlots with
      | [] => none
      | h :: t => some (t.foldl
          (fun furthest slot =>
            if furthest.distance_from_entrance < slot.distance_from_entrance
            then slot else furthest) h)
    else if rules.priority = "corner_edge" then
      match emptySlots.filter (fun slot => slot.is_corner || slot.is_edge) with
      | [] => emptySlots.head?
      | h :: t => some (t.foldl
          (fun furthest slot =>
            if furthest.distance_from_entrance < slot.distance_from_entrance
            then slot else furthest) h)
    else none

/-- `generatePathsToSlot`: 4 candidate paths when `slot.row <= 1`, else 3;
per-path distance jitter and junction extra come from the injected
`Math.random()` streams `jit` and `ext` (one draw of each per path). -/
def generatePathsToSlot {α : Type} (slot : Slot α) (jit ext : ℕ → ℚ) :
    List Path :=
  let slotRow := slot.row
  let pathCount := if slotRow ≤ 1 then 4 else 3
  (List.range pathCount).map fun i =>
    { id := i + 1
      name := "Path " ++ toString (i + 1)
      distance := 65 + (i : ℚ) * 25 + jit i * 20
      tJunctions := 1 + (i : ℚ) + ((⌊ext i * 2⌋ : ℤ) : ℚ)
      vehicleIntensity := none
      score := none }

/-- `detectPathVehicleIntensities` (success case): a fresh dictionary maps
each path id to `Math.floor(Math.random() * 80) + 10`, with `rnd` the
injected random stream indexed by iteration order. -/
def detectPathVehicleIntensities (pathsData : List Path) (rnd : ℕ → ℚ) :
    ℕ → Option ℤ :=
  (jsMapIdx (fun i path => (path.id, ⌊rnd i * 80⌋ + 10)) pathsData).foldl
    (fun m kv => fun id => if id = kv.1 then some kv.2 else m id)
    (fun _ => none)

/-- The scoring pass of `calculateOptimalPath`: each path gets the intensity
looked up under its id (`|| 0` when absent) and the score
`distance*0.1 + tJunctions*0.6 + intensity*0.3`. -/
def scorePaths (pathsData : List Path) (intens : ℕ → Option ℤ) : List Path :=
  pathsData.map fun path =>
    let intensity : ℚ := ((intens path.id).getD 0 : ℤ)
    let score := path.distance * 0.1 + path.tJunctions * 0.6 + intensity * 0.3
    { path with vehicleIntensity := some intensity, score := some score }

/-- `calculateOptimalPath`: score every path, then `reduce` to the path of
minimum score (strict comparison, so the first occurrence wins ties).
JavaScript `[].reduce` without seed throws; modelled as `none`. -/
def calculateOptimalPath (pathsData : List Path) (intens : ℕ → Option ℤ) :
    Option Path :=
  match scorePaths pathsData intens with
  | [] => none
  | h :: t => some (t.foldl
      (fun best path =>
        if path.score.getD 0 < best.score.getD 0 then path else best) h)

/-- `handleVehicleIntensityChange`: functional update of the intensity
dictionary with `parseInt(value) || 0`. -/
def handleVehicleIntensityChange (pathId : ℕ) (value : String)
    (prev : ℕ → Option ℤ) : ℕ → Option ℤ :=
  fun id => if id = pathId then some (jsParseIntOr0 value) else prev id

/-- The slot record built for the detection at position `index` of the
spatially sorted batch of `total` detections (the arrow function inside
`slots: sortedSlots.map((pred, index) => ...)`, hoisted for reuse in
statements). -/
noncomputable def buildSlot (image : Option ImageDims) (total : ℕ)
    (index : ℕ) (pred : Detection) : Slot ℝ :=
  { slot_number := index + 1
    status := if isEmptySlot pred.class_label then "empty" else "occupied"
    row := index / 8
    col := index % 8
    x := pred.x
    y := pred.y
    width := pred.width
    height := pred.height
    confidence := pred.confidence
    original_class := pred.class_label
    is_corner := isCornerSlot index total
    is_edge := isEdgeSlot index total
    distance_from_entrance := calculateDistanceFromEntrance pred image }

/-- `roboflowAPI.detectParkingSlots`, success path after the HTTP call:
reject an empty prediction list, sort spatially, and build the slot
records (`slot_number = index + 1`, 8-wide grid, corner/edge flags,
distance from the assumed entrance). -/
noncomputable def detectParkingSlots (predictions : List Detection)
    (image : Option ImageDims) : Except String DetectionResult :=
  if predictions.isEmpty then
    .error "No parking slots detected. Try adjusting the image or confidence threshold."
  else
    let sortedSlots := sortSlotsSpatiallly predictions
    .ok
      { total_slots := sortedSlots.length
        empty_slots :=
          jsMapIdx (fun i _ => i + 1)
            (sortedSlots.filter (fun s => isEmptySlot s.class_label))
        occupied_slots :=
          jsMapIdx (fun i _ => i + 1)
            (sortedSlots.filter (fun s => !isEmptySlot s.class_label))
        slots := jsMapIdx (buildSlot image sortedSlots.length) sortedSlots
        detection_image := image }

/-! ## Session state and the allocation step -/

/-- The session state held by the component (the `useState` hooks that the
decision flow reads or writes; the API key is configuration, not session
state, and is externalized together with the network calls). -/
structure SessionState (α : Type) where
  currentStep : ℕ
  parkingImage : Option String
  vehicleImage : Option String
  detectedSlots : List (Slot α)
  detectedVehicleType : Option VehicleDetection
  allocatedSlot : Option (Slot α)
  pathsData : List Path
  pathVehicleIntensities : ℕ → Option ℤ
  optimalPath : Option Path
  isProcessing : Bool
  error : String
  detectionImage : Option ImageDims

/-- The initial values of the `useState` hooks. -/
def initialSessionState {α : Type} : SessionState α :=
  { currentStep := 1
    parkingImage := none
    vehicleImage := none
    detectedSlots := []
    detectedVehicleType := none
    allocatedSlot := none
    pathsData := []
    pathVehicleIntensities := fun _ => none
    optimalPath := none
    isProcessing := false
    error := ""
    detectionImage := none }

/-- `resetSystem`: clears every derived entity back to its initial value
(the source does not touch `isProcessing`). -/
def resetSystem {α : Type} (st : SessionState α) : SessionState α :=
  { st with
    currentStep := 1
    parkingImage := none
    vehicleImage := none
    detectedSlots := []
    detectedVehicleType := none
    allocatedSlot := none
    pathsData := []
    pathVehicleIntensities := fun _ => none
    optimalPath := none
    detectionImage := none
    error := "" }

/-- `detectVehicleAndAllocate`, with the external vehicle-type detection
call's successful result injected as `vehicleResult` and the `Math.random()`
streams of path generation injected as `jit`/`ext`: commit the detected
vehicle type, then either fail with the no-empty-slots error or allocate a
slot and generate the candidate paths. The `finally` clause ends with
`isProcessing = false` on every exit. -/
def detectVehicleAndAllocate {α : Type} [LinearOrder α] (st : SessionState α)
    (vehicleResult : VehicleDetection) (jit ext : ℕ → ℚ) : SessionState α :=
  if st.vehicleImage = none then st
  else
    let st1 := { st with
      isProcessing := true
      error := ""
      detectedVehicleType := some vehicleResult }
    let emptySlots := st1.detectedSlots.filter (fun slot => slot.status == "empty")
    if emptySlots.isEmpty then
      { st1 with error := "No empty slots available", isProcessing := false }
    else
      let bestSlot := allocateSlot vehicleResult.vehicle_type emptySlots
      let st2 := { st1 with allocatedSlot := bestSlot }
      let st3 := match bestSlot with
        | some b => { st2 with pathsData := generatePathsToSlot b jit ext }
        | none => st2
      { st3 with currentStep := 3, isProcessing := false }

/-! ## Specification-side notions (for refinement statements)

These two definitions follow the words of the spec, not the source: a
stable reduction picks the first element attaining the optimum. -/

/-- `r` is the first element of `l` attaining the minimum of `f`:
everything before it is strictly larger, everything after it no smaller. -/
def isFirstMinBy {α β : Type} [LinearOrder β] (f : α → β) (l : List α)
    (r : α) : Prop :=
  ∃ l₁ l₂, l = l₁ ++ r :: l₂ ∧ (∀ s ∈ l₁, f r < f s) ∧ (∀ s ∈ l₂, f r ≤ f s)

/-- `r` is the first element of `l` attaining the maximum of `f`. -/
def isFirstMaxBy {α β : Type} [LinearOrder β] (f : α → β) (l : List α)
    (r : α) : Prop :=
  ∃ l₁ l₂, l = l₁ ++ r :: l₂ ∧ (∀ s ∈ l₁, f s < f r) ∧ (∀ s ∈ l₂, f s ≤ f r)

/-! ## Helper lemmas -/

theorem isFirstMinBy_mem_le {α β : Type} [LinearOrder β] {f : α → β}
    {l : List α} {r : α} (h : isFirstMinBy f l r) : ∀ x ∈ l, f r ≤ f x := by
  obtain ⟨l₁, l₂, rfl, h₁, h₂⟩ := h
  intro x hx
  rcases List.mem_append.mp hx with hx | hx
  · exact le_of_lt (h₁ x hx)
  · rcases List.mem_cons.mp hx with rfl | hx
    · exact le_refl _
    · exact h₂ x hx

theorem isFirstMaxBy_mem_ge {α β : Type} [LinearOrder β] {f : α → β}
    {l : List α} {r : α} (h : isFirstMaxBy f l r) : ∀ x ∈ l, f x ≤ f r := by
  obtain ⟨l₁, l₂, rfl, h₁, h₂⟩ := h
  intro x hx
  rcases List.mem_append.mp hx with hx | hx
  · exact le_of_lt (h₁ x hx)
  · rcases List.mem_cons.mp hx with rfl | hx
    · exact le_refl _
    · exact h₂ x hx

/-- A seed-less `reduce` with a strict-less test keeps the first occurrence
of the minimum. -/
theorem foldl_min_isFirstMinBy {α β : Type} [LinearOrder β] (f : α → β) :
    ∀ (t : List α) (a : α),
      isFirstMinBy f (a :: t)
        (t.foldl (fun acc s => if f s < f acc then s else acc) a) := by
  intro t
  induction t with
  | nil => intro a; exact ⟨[], [], rfl, by simp, by simp⟩
  | cons s t' ih =>
    intro a
    rw [List.foldl_cons]
    by_cases h : f s < f a
    · rw [if_pos h]
      obtain ⟨l₁, l₂, hsplit, h₁, h₂⟩ := ih s
      have hle := isFirstMinBy_mem_le (ih s) s (List.mem_cons_self _ _)
      refine ⟨a :: l₁, l₂, ?_, ?_, h₂⟩
      · rw [List.cons_append, ← hsplit]
      · intro x hx
        rcases List.mem_cons.mp hx with rfl | hx
        · exact lt_of_le_of_lt hle h
        · exact h₁ x hx
    · rw [if_neg h]
      have hle : f a ≤ f s := le_of_not_lt h
      obtain ⟨l₁, l₂, hsplit, h₁, h₂⟩ := ih a
      cases l₁ with
      | nil =>
        rw [List.nil_append] at hsplit
        obtain ⟨ha, ht⟩ := List.cons_eq_cons.mp hsplit
        refine ⟨[], s :: t', ?_, by simp, ?_⟩
        · rw [List.nil_append, ← ha]
        · intro x hx
          rcases List.mem_cons.mp hx with rfl | hx
          · exact ha ▸ hle
          · exact h₂ x (ht ▸ hx)
      | cons b l₁' =>
        rw [List.cons_append] at hsplit
        obtain ⟨hab, ht⟩ := List.cons_eq_cons.mp hsplit
        subst hab
        have hra : f (List.foldl (fun acc s => if f s < f acc then s else acc) a t') < f a :=
          h₁ a (List.mem_cons_self _ _)
        refine ⟨a :: s :: l₁', l₂, ?_, ?_, h₂⟩
        · rw [List.cons_append, List.cons_append, ← ht]
        · intro x hx
          rcases List.mem_cons.mp hx with rfl | hx
          · exact hra
          · rcases List.mem_cons.mp hx with rfl | hx
            · exact lt_of_lt_of_le hra hle
            · exact h₁ x (List.mem_cons_of_mem _ hx)

/-- A seed-less `reduce` with a strict-greater test keeps the first
occurrence of the maximum. -/
theorem foldl_max_isFirstMaxBy {α β : Type} [LinearOrder β] (f : α → β) :
    ∀ (t : List α) (a : α),
      isFirstMaxBy f (a :: t)
        (t.foldl (fun acc s => if f acc < f s then s else acc) a) := by
  intro t
  induction t with
  | nil => intro a; exact ⟨[], [], rfl, by simp, by simp⟩
  | cons s t' ih =>
    intro a
    rw [List.foldl_cons]
    by_cases h : f a < f s
    · rw [if_pos h]
      obtain ⟨l₁, l₂, hsplit, h₁, h₂⟩ := ih s
      have hge := isFirstMaxBy_mem_ge (ih s) s (List.mem_cons_self _ _)
      refine ⟨a :: l₁, l₂, ?_, ?_, h₂⟩
      · rw [List.cons_append, ← hsplit]
      · intro x hx
        rcases List.mem_cons.mp hx with rfl | hx
        · exact lt_of_lt_of_le h hge
        · exact h₁ x hx
    · rw [if_neg h]
      have hge : f s ≤ f a := le_of_not_lt h
      obtain ⟨l₁, l₂, hsplit, h₁, h₂⟩ := ih a
      cases l₁ with
      | nil =>
        rw [List.nil_append] at hsplit
        obtain ⟨ha, ht⟩ := List.cons_eq_cons.mp hsplit
        refine ⟨[], s :: t', ?_, by simp, ?_⟩
        · rw [List.nil_append, ← ha]
        · intro x hx
          rcases List.mem_cons.mp hx with rfl | hx
          · exact ha ▸ hge
          · exact h₂ x (ht ▸ hx)
      | cons b l₁' =>
        rw [List.cons_append] at hsplit
        obtain ⟨hab, ht⟩ := List.cons_eq_cons.mp hsplit
        subst hab
        have hra : f a < f (List.foldl (fun acc s => if f acc < f s then s else acc) a t') :=
          h₁ a (List.mem_cons_self _ _)
        refine ⟨a :: s :: l₁', l₂, ?_, ?_, h₂⟩
        · rw [List.cons_append, List.cons_append, ← ht]
        · intro x hx
          rcases List.mem_cons.mp hx with rfl | hx
          · exact hra
          · rcases List.mem_cons.mp hx with rfl | hx
            · exact lt_of_le_of_lt hge hra
            · exact h₁ x (List.mem_cons_of_mem _ hx)

/-- `List.find?` returns the first satisfying element, or `none` when no
element satisfies the predicate. -/
theorem find?_first_split {α : Type} (p : α → Bool) :
    ∀ l : List α,
      (∃ pre x post, l = pre ++ x :: post ∧ (∀ y ∈ pre, p y = false) ∧
        p x = true ∧ l.find? p = some x)
      ∨ ((∀ y ∈ l, p y = false) ∧ l.find? p = none) := by
  intro l
  induction l with
  | nil => right; exact ⟨by simp, rfl⟩
  | cons a l ih =>
    by_cases h : p a
    · left
      exact ⟨[], a, l, by simp, by simp, h, by rw [List.find?_cons_of_pos _ h]⟩
    · have hfa : p a = false := by simpa using h
      rcases ih with ⟨pre, x, post, hsplit, hpre, hx, hfind⟩ | ⟨hall, hfind⟩
      · left
        refine ⟨a :: pre, x, post, by simp [hsplit], ?_, hx, ?_⟩
        · intro y hy
          rcases List.mem_cons.mp hy with rfl | hy
          · exact hfa
          · exact hpre y hy
        · rw [List.find?_cons_of_neg _ h, hfind]
      · right
        refine ⟨?_, by rw [List.find?_cons_of_neg _ h, hfind]⟩
        intro y hy
        rcases List.mem_cons.mp hy with rfl | hy
        · exact hfa
        · exact hall y hy

theorem jsSortInsert_length {α : Type} (cmp : α → α → ℚ) (a : α) :
    ∀ l, (jsSortInsert cmp a l).length = l.length + 1 := by
  intro l
  induction l with
  | nil => rfl
  | cons b l ih =>
    by_cases h : cmp a b ≤ 0 <;> simp [jsSortInsert, h, ih]

theorem jsSort_length {α : Type} (cmp : α → α → ℚ) :
    ∀ l, (jsSort cmp l).length = l.length := by
  intro l
  induction l with
  | nil => rfl
  | cons a l ih => rw [jsSort, jsSortInsert_length, ih, List.length_cons]

theorem jsSortInsert_head? {α : Type} (cmp : α → α → ℚ) (a : α) :
    ∀ l, (jsSortInsert cmp a l).head? = some a ∨
      (jsSortInsert cmp a l).head? = l.head? := by
  intro l
  cases l with
  | nil => left; rfl
  | cons b l =>
    by_cases h : cmp a b ≤ 0
    · left; simp [jsSortInsert, h]
    · right; simp [jsSortInsert, h]

/-- Inserting into a locally sorted list keeps it locally sorted, provided
the comparator is total. -/
theorem jsSortInsert_chain {α : Type} (cmp : α → α → ℚ)
    (htot : ∀ x y, ¬ cmp x y ≤ 0 → cmp y x ≤ 0) (a : α) :
    ∀ l, List.Chain' (fun x y => cmp x y ≤ 0) l →
      List.Chain' (fun x y => cmp x y ≤ 0) (jsSortInsert cmp a l) := by
  intro l
  induction l with
  | nil => intro _; simp [jsSortInsert]
  | cons b l ih =>
    intro hc
    rw [jsSortInsert]
    by_cases h : cmp a b ≤ 0
    · rw [if_pos h]
      exact List.chain'_cons'.mpr ⟨fun y hy => by simp at hy; rw [← hy]; exact h, hc⟩
    · rw [if_neg h]
      have htail := (List.chain'_cons'.mp hc).2
      refine List.chain'_cons'.mpr ⟨?_, ih htail⟩
      intro y hy
      rcases jsSortInsert_head? cmp a l with hh | hh
      · rw [hh] at hy
        simp at hy
        rw [← hy]
        exact htot a b h
      · rw [hh] at hy
        exact (List.chain'_cons'.mp hc).1 y hy

/-- The modelled `Array.prototype.sort` output is locally sorted for the
comparator. -/
theorem jsSort_chain {α : Type} (cmp : α → α → ℚ)
    (htot : ∀ x y, ¬ cmp x y ≤ 0 → cmp y x ≤ 0) :
    ∀ l, List.Chain' (fun x y => cmp x y ≤ 0) (jsSort cmp l) := by
  intro l
  induction l with
  | nil => simp [jsSort]
  | cons a l ih => exact jsSortInsert_chain cmp htot a _ ih

/-- Sorting a locally sorted list is the identity. -/
theorem jsSort_of_chain {α : Type} (cmp : α → α → ℚ) :
    ∀ l, List.Chain' (fun x y => cmp x y ≤ 0) l → jsSort cmp l = l := by
  intro l
  induction l with
  | nil => intro _; rfl
  | cons a l ih =>
    intro hc
    rw [jsSort, ih (List.chain'_cons'.mp hc).2]
    cases l with
    | nil => rfl
    | cons b l =>
      have hab : cmp a b ≤ 0 := (List.chain'_cons'.mp hc).1 b rfl
      rw [jsSortInsert, if_pos hab]

theorem jsMapIdxFrom_length {α β : Type} (f : ℕ → α → β) :
    ∀ (l : List α) (k : ℕ), (jsMapIdxFrom f k l).length = l.length := by
  intro l
  induction l with
  | nil => intro k; rfl
  | cons a l ih => intro k; rw [jsMapIdxFrom, List.length_cons, ih, List.length_cons]

theorem jsMapIdxFrom_mem {α β : Type} {f : ℕ → α → β} :
    ∀ {l : List α} {k : ℕ} {b : β}, b ∈ jsMapIdxFrom f k l →
      ∃ i a, a ∈ l ∧ b = f i a := by
  intro l
  induction l with
  | nil => intro k b hb; simp [jsMapIdxFrom] at hb
  | cons a l ih =>
    intro k b hb
    rw [jsMapIdxFrom] at hb
    rcases List.mem_cons.mp hb with rfl | hb
    · exact ⟨k, a, List.mem_cons_self _ _, rfl⟩
    · obtain ⟨i, a', ha', hb⟩ := ih hb
      exact ⟨i, a', List.mem_cons_of_mem _ ha', hb⟩

theorem jsMapIdxFrom_map_eq_range' {α β : Type} {f : ℕ → α → β} {g : β → ℕ}
    (hg : ∀ i a, g (f i a) = i + 1) :
    ∀ (l : List α) (k : ℕ),
      (jsMapIdxFrom f k l).map g = List.range' (k + 1) l.length := by
  intro l
  induction l with
  | nil => intro k; rfl
  | cons a l ih =>
    intro k
    rw [jsMapIdxFrom, List.map_cons, hg, List.length_cons, List.range'_succ, ih]

theorem sortCmp_neg (a b : Detection) : sortCmp b a = -sortCmp a b := by
  unfold sortCmp
  rw [abs_sub_comm]
  by_cases h : |a.y - b.y| < 50
  · rw [if_pos h, if_pos h]; ring
  · rw [if_neg h, if_neg h]; ring

theorem sortCmp_total (a b : Detection) (h : ¬ sortCmp a b ≤ 0) :
    sortCmp b a ≤ 0 := by
  rw [sortCmp_neg]
  have := not_le.mp h
  linarith

theorem isEmpty_false_of_ne_nil {α : Type} {l : List α} (h : l ≠ []) :
    l.isEmpty = false := by
  cases l with
  | nil => exact absurd rfl h
  | cons a l => rfl

/-! ## Claim theorems -/

/-- C4: applying the spatial sort twice yields the identical result (and
hence the identical positional `slot_number` assignment, as the third
conjunct makes explicit on the full normalizer) as applying it once, and
in the sorted order any two adjacent detections whose `y` coordinates
differ by less than 50 are ordered by ascending `x`. -/
theorem spatial_sort_idempotent_and_rowwise (preds : List Detection)
    (img : Option ImageDims) :
    sortSlotsSpatiallly (sortSlotsSpatiallly preds) = sortSlotsSpatiallly preds ∧
    List.Chain' (fun a b => |a.y - b.y| < 50 → a.x ≤ b.x)
      (sortSlotsSpatiallly preds) ∧
    detectParkingSlots (sortSlotsSpatiallly preds) img =
      detectParkingSlots preds img := by
  have hidem : sortSlotsSpatiallly (sortSlotsSpatiallly preds) = sortSlotsSpatiallly preds :=
    jsSort_of_chain sortCmp _ (jsSort_chain sortCmp sortCmp_total preds)
  refine ⟨hidem, ?_, ?_⟩
  · refine List.Chain'.imp ?_ (jsSort_chain sortCmp sortCmp_total preds)
    intro a b hab hy
    unfold sortCmp at hab
    rw [if_pos hy] at hab
    linarith
  · by_cases hp : preds = []
    · subst hp; rfl
    · have hs : sortSlotsSpatiallly preds ≠ [] := by
        intro h
        have hl := jsSort_length sortCmp preds
        rw [show jsSort sortCmp preds = sortSlotsSpatiallly preds from rfl, h] at hl
        exact hp (List.length_eq_zero.mp hl.symm)
      rw [detectParkingSlots, detectParkingSlots, isEmpty_false_of_ne_nil hs,
        isEmpty_false_of_ne_nil hp]
      simp only [Bool.false_eq_true, if_false]
      rw [hidem]

/-- C5: for a non-empty batch of `N` detections the normalizer succeeds and
outputs slots whose `slot_number`s are exactly `1..N` in order, with
`row = (slot_number-1) div 8` and `col = (slot_number-1) mod 8`, and
recomputation from the same batch yields the same slots. -/
theorem slot_normalizer_contiguous (predictions : List Detection)
    (image : Option ImageDims) (h : predictions ≠ []) :
    ∃ res, detectParkingSlots predictions image = Except.ok res ∧
      res.slots.map Slot.slot_number = List.range' 1 predictions.length ∧
      (∀ s ∈ res.slots,
        s.row = (s.slot_number - 1) / 8 ∧ s.col = (s.slot_number - 1) % 8) ∧
      (∀ res2, detectParkingSlots predictions image = Except.ok res2 →
        res2.slots = res.slots) := by
  have hok : ∃ res, detectParkingSlots predictions image = Except.ok res := by
    rw [detectParkingSlots, isEmpty_false_of_ne_nil h]
    simp only [Bool.false_eq_true, if_false]
    exact ⟨_, rfl⟩
  obtain ⟨res, hres⟩ := hok
  have hslots : res.slots =
      jsMapIdx (buildSlot image (sortSlotsSpatiallly predictions).length)
        (sortSlotsSpatiallly predictions) := by
    have hcopy := hres
    rw [detectParkingSlots, isEmpty_false_of_ne_nil h] at hcopy
    simp only [Bool.false_eq_true, if_false, Except.ok.injEq] at hcopy
    rw [← hcopy]
  have hg : ∀ (i : ℕ) (pred : Detection),
      (buildSlot image (sortSlotsSpatiallly predictions).length i pred).slot_number
        = i + 1 := fun _ _ => rfl
  refine ⟨res, hres, ?_, ?_, ?_⟩
  · rw [hslots, jsMapIdx,
      @jsMapIdxFrom_map_eq_range' Detection (Slot ℝ)
        (buildSlot image (sortSlotsSpatiallly predictions).length)
        Slot.slot_number hg (sortSlotsSpatiallly predictions) 0,
      sortSlotsSpatiallly, jsSort_length]
  · intro s hs
    rw [hslots] at hs
    obtain ⟨i, a, _, rfl⟩ := jsMapIdxFrom_mem hs
    exact ⟨by simp [buildSlot], by simp [buildSlot]⟩
  · intro res2 hres2
    rw [hres] at hres2
    cases hres2
    rfl

/-- C7: the vehicle classifier lower-cases the label, scans the ordered
mapping table and returns the value of the first key contained in the
label, defaulting to car; the three cited labels map to truck, motorcycle
and car respectively. -/
theorem vehicle_classifier_first_match :
    (∀ label : String,
      (∃ pre kv post, classMapping = pre ++ kv :: post ∧
        (∀ kv2 ∈ pre, jsIncludes (jsToLowerCase label) kv2.1 = false) ∧
        jsIncludes (jsToLowerCase label) kv.1 = true ∧
        mapClassToVehicleType label = kv.2) ∨
      ((∀ kv ∈ classMapping, jsIncludes (jsToLowerCase label) kv.1 = false) ∧
        mapClassToVehicleType label = "car")) ∧
    mapClassToVehicleType "Pickup Truck" = "truck" ∧
    mapClassToVehicleType "Scooter-X1" = "motorcycle" ∧
    mapClassToVehicleType "Golf Cart" = "car" := by
  refine ⟨?_, by decide, by decide, by decide⟩
  intro label
  rcases find?_first_split (fun kv => jsIncludes (jsToLowerCase label) kv.1)
      classMapping
    with ⟨pre, x, post, hsplit, hpre, hx, hfind⟩ | ⟨hall, hfind⟩
  · left
    exact ⟨pre, x, post, hsplit, hpre, hx, by rw [mapClassToVehicleType, hfind]⟩
  · right
    exact ⟨hall, by rw [mapClassToVehicleType, hfind]⟩

/-- Reduction of the allocation engine for a category whose rule is
corner-or-edge (truck, bus, van). -/
theorem allocateSlot_corner_edge {α : Type} [LinearOrder α] (vt : String)
    (hvt : vehicleRules vt = some ⟨"corner_edge", false⟩)
    (emptySlots : List (Slot α)) :
    allocateSlot vt emptySlots =
      (match emptySlots.filter (fun slot => slot.is_corner || slot.is_edge) with
        | [] => emptySlots.head?
        | h :: t => some (t.foldl
            (fun furthest slot =>
              if furthest.distance_from_entrance < slot.distance_from_entrance
              then slot else furthest) h)) := by
  rw [allocateSlot.eq_def, hvt]
  rfl

/-- C1: for every canonical category and non-empty empty-slot list the
engine returns exactly the slot the per-category rule names, ties resolved
by first occurrence in the (spatially ordered) input list: car takes the
first slot of minimum distance, motorcycle the first of maximum distance,
and truck/bus/van the first corner-or-edge slot of maximum distance,
falling back to the first empty slot when no corner-or-edge slot exists. -/
theorem allocation_policy_per_category {α : Type} [LinearOrder α]
    (vt : String) (slots : List (Slot α))
    (hvt : vt = "car" ∨ vt = "motorcycle" ∨ vt = "truck" ∨ vt = "bus" ∨ vt = "van")
    (hne : slots ≠ []) (hstatus : ∀ s ∈ slots, s.status = "empty") :
    ∃ r, allocateSlot vt slots = some r ∧
      (vt = "car" →
        isFirstMinBy (fun s => s.distance_from_entrance) slots r) ∧
      (vt = "motorcycle" →
        isFirstMaxBy (fun s => s.distance_from_entrance) slots r) ∧
      ((vt = "truck" ∨ vt = "bus" ∨ vt = "van") →
        (slots.filter (fun s => s.is_corner || s.is_edge) = [] →
          slots.head? = some r) ∧
        (slots.filter (fun s => s.is_corner || s.is_edge) ≠ [] →
          isFirstMaxBy (fun s => s.distance_from_entrance)
            (slots.filter (fun s => s.is_corner || s.is_edge)) r)) := by
  obtain ⟨h0, t, rfl⟩ := List.exists_cons_of_ne_nil hne
  rcases hvt with rfl | rfl | rfl | rfl | rfl
  · exact ⟨_, rfl,
      fun _ => foldl_min_isFirstMinBy (fun s => s.distance_from_entrance) t h0,
      fun hmc => absurd hmc (by decide),
      by rintro (hh | hh | hh) <;> exact absurd hh (by decide)⟩
  · exact ⟨_, rfl,
      fun hc => absurd hc (by decide),
      fun _ => foldl_max_isFirstMaxBy (fun s => s.distance_from_entrance) t h0,
      by rintro (hh | hh | hh) <;> exact absurd hh (by decide)⟩
  all_goals {
    cases hfil : (h0 :: t).filter (fun s => s.is_corner || s.is_edge) with
    | nil =>
      refine ⟨h0, ?_, fun hh => absurd hh (by decide),
        fun hh => absurd hh (by decide),
        fun _ => ⟨fun _ => rfl, fun hnn => absurd rfl hnn⟩⟩
      rw [allocateSlot_corner_edge _ (by rfl), hfil]
      rfl
    | cons c cs =>
      refine ⟨cs.foldl
          (fun furthest slot =>
            if furthest.distance_from_entrance < slot.distance_from_entrance
            then slot else furthest) c, ?_,
        fun hh => absurd hh (by decide), fun hh => absurd hh (by decide),
        fun _ => ⟨fun hnil => absurd hnil (List.cons_ne_nil c cs),
          fun _ => foldl_max_isFirstMaxBy (fun s => s.distance_from_entrance) cs c⟩⟩
      rw [allocateSlot_corner_edge _ (by rfl), hfil]
  }

/-- C2: scoring assigns each path `distance*0.1 + tJunctions*0.6 +
intensity*0.3` and selection returns the first path of minimum score. -/
theorem path_score_min_selection (pathsData : List Path)
    (intens : ℕ → Option ℤ) (hne : pathsData ≠ [])
    (hpop : ∀ p ∈ pathsData, (intens p.id).isSome) :
    ∃ best, calculateOptimalPath pathsData intens = some best ∧
      isFirstMinBy (fun p => p.score.getD 0) (scorePaths pathsData intens) best ∧
      ∀ q ∈ scorePaths pathsData intens,
        q.score = some (q.distance * 0.1 + q.tJunctions * 0.6 +
          q.vehicleIntensity.getD 0 * 0.3) := by
  cases hsc : scorePaths pathsData intens with
  | nil =>
    unfold scorePaths at hsc
    exact absurd (List.map_eq_nil_iff.mp hsc) hne
  | cons h t =>
    refine ⟨t.foldl
        (fun best path =>
          if path.score.getD 0 < best.score.getD 0 then path else best) h,
      ?_, ?_, ?_⟩
    · rw [calculateOptimalPath.eq_def, hsc]
    · exact foldl_min_isFirstMinBy (fun p => p.score.getD 0) t h
    · intro q hq
      rw [← hsc] at hq
      unfold scorePaths at hq
      obtain ⟨p, _, rfl⟩ := List.mem_map.mp hq
      rfl

/-- The first example path of the spec's path-scoring test vector. -/
def examplePath1 : Path :=
  { id := 1, name := "Path 1", distance := 65, tJunctions := 1,
    vehicleIntensity := none, score := none }

/-- The second example path of the spec's path-scoring test vector. -/
def examplePath2 : Path :=
  { id := 2, name := "Path 2", distance := 90, tJunctions := 3,
    vehicleIntensity := none, score := none }

/-- The example intensity map: 20 for path 1, 60 for path 2. -/
def exampleIntens : ℕ → Option ℤ :=
  fun id => if id = 1 then some 20 else if id = 2 then some 60 else none

/-- Evaluation of the scoring pass on the spec's example input. -/
theorem scorePaths_example_eval :
    scorePaths [examplePath1, examplePath2] exampleIntens =
      [{ examplePath1 with vehicleIntensity := some 20, score := some 13.1 },
       { examplePath2 with vehicleIntensity := some 60, score := some 28.8 }] := by
  unfold scorePaths
  simp only [List.map_cons, List.map_nil, examplePath1, examplePath2,
    exampleIntens]
  norm_num

/-- Evaluation of the selection pass on the spec's example input. -/
theorem calculateOptimalPath_example_eval :
    calculateOptimalPath [examplePath1, examplePath2] exampleIntens =
      some { examplePath1 with vehicleIntensity := some 20, score := some 13.1 } := by
  rw [calculateOptimalPath.eq_def, scorePaths_example_eval]
  simp only [List.foldl_cons, List.foldl_nil, Option.getD_some]
  norm_num

/-- C3, counterexample: on the cited input the scores are not 68.6 and
46.8, and the selected path is not the second one (its id is 1). -/
theorem path_scoring_example_cex :
    ¬((scorePaths [examplePath1, examplePath2] exampleIntens).map
        (fun p => p.score) = [some (68.6 : ℚ), some 46.8] ∧
      (calculateOptimalPath [examplePath1, examplePath2] exampleIntens).map
        (fun p => p.id) = some 2) := by
  intro hcl
  have h1 := hcl.1
  rw [scorePaths_example_eval] at h1
  simp only [List.map_cons, List.map_nil, List.cons.injEq,
    Option.some.injEq] at h1
  norm_num at h1

/-- C3, amended: on the cited input the scores are 13.1 and 28.8 and the
first path is selected as the optimal path. -/
theorem path_scoring_example_amended :
    (scorePaths [examplePath1, examplePath2] exampleIntens).map
      (fun p => p.score) = [some (13.1 : ℚ), some 28.8] ∧
    calculateOptimalPath [examplePath1, examplePath2] exampleIntens =
      some { examplePath1 with vehicleIntensity := some 20, score := some 13.1 } := by
  refine ⟨?_, calculateOptimalPath_example_eval⟩
  rw [scorePaths_example_eval]
  rfl

/-- C8: the generator yields 4 paths when `slot.row <= 1` and 3 otherwise;
path `i` (0-indexed) has distance in `[65+25*i, 65+25*i+20)`, `1+i` or
`2+i` t-junctions, and unset intensity and score. -/
theorem path_candidate_generator_shape {α : Type} (slot : Slot α)
    (jit ext : ℕ → ℚ) (hj : ∀ n, 0 ≤ jit n ∧ jit n < 1)
    (he : ∀ n, 0 ≤ ext n ∧ ext n < 1) :
    (generatePathsToSlot slot jit ext).length =
      (if slot.row ≤ 1 then 4 else 3) ∧
    ∀ (i : ℕ) (h : i < (generatePathsToSlot slot jit ext).length),
      65 + 25 * (i : ℚ) ≤ ((generatePathsToSlot slot jit ext).get ⟨i, h⟩).distance ∧
      ((generatePathsToSlot slot jit ext).get ⟨i, h⟩).distance < 65 + 25 * (i : ℚ) + 20 ∧
      (((generatePathsToSlot slot jit ext).get ⟨i, h⟩).tJunctions = 1 + (i : ℚ) ∨
        ((generatePathsToSlot slot jit ext).get ⟨i, h⟩).tJunctions = 2 + (i : ℚ)) ∧
      ((generatePathsToSlot slot jit ext).get ⟨i, h⟩).vehicleIntensity = none ∧
      ((generatePathsToSlot slot jit ext).get ⟨i, h⟩).score = none := by
  constructor
  · unfold generatePathsToSlot
    rw [List.length_map, List.length_range]
  · intro i h
    have hi : i < (if slot.row ≤ 1 then 4 else 3) := by
      rw [← List.length_range (if slot.row ≤ 1 then 4 else 3)]
      simpa [generatePathsToSlot] using h
    have hget : (generatePathsToSlot slot jit ext).get ⟨i, h⟩ =
        { id := i + 1
          name := "Path " ++ toString (i + 1)
          distance := 65 + (i : ℚ) * 25 + jit i * 20
          tJunctions := 1 + (i : ℚ) + ((⌊ext i * 2⌋ : ℤ) : ℚ)
          vehicleIntensity := none
          score := none } := by
      rw [List.get_eq_getElem]
      unfold generatePathsToSlot
      rw [List.getElem_map, List.getElem_range]
    rw [hget]
    obtain ⟨hj0, hj1⟩ := hj i
    obtain ⟨he0, he1⟩ := he i
    refine ⟨?_, ?_, ?_, rfl, rfl⟩
    · show 65 + 25 * (i : ℚ) ≤ 65 + (i : ℚ) * 25 + jit i * 20
      have hz : (0 : ℚ) ≤ jit i * 20 := mul_nonneg hj0 (by norm_num)
      linarith
    · show 65 + (i : ℚ) * 25 + jit i * 20 < 65 + 25 * (i : ℚ) + 20
      have hz : jit i * 20 < 1 * 20 :=
        mul_lt_mul_of_pos_right hj1 (by norm_num)
      linarith
    · have h0 : (0 : ℤ) ≤ ⌊ext i * 2⌋ :=
        Int.floor_nonneg.mpr (mul_nonneg he0 (by norm_num))
      have h2 : ⌊ext i * 2⌋ < 2 := by
        rw [Int.floor_lt]
        push_cast
        nlinarith
      have hcase : ⌊ext i * 2⌋ = 0 ∨ ⌊ext i * 2⌋ = 1 := by omega
      rcases hcase with hf | hf
      · left
        show 1 + (i : ℚ) + ((⌊ext i * 2⌋ : ℤ) : ℚ) = 1 + (i : ℚ)
        rw [hf]
        norm_num
      · right
        show 1 + (i : ℚ) + ((⌊ext i * 2⌋ : ℤ) : ℚ) = 2 + (i : ℚ)
        rw [hf]
        push_cast
        ring

/-- Each `some` value held by the dictionary built by a fold of keyed
updates satisfies any property satisfied by every inserted value and every
value of the initial dictionary. -/
theorem foldl_update_preserves {P : ℤ → Prop} :
    ∀ (kvs : List (ℕ × ℤ)) (m0 : ℕ → Option ℤ),
      (∀ kv ∈ kvs, P kv.2) → (∀ id v, m0 id = some v → P v) →
      ∀ id v,
        (kvs.foldl (fun m kv => fun id => if id = kv.1 then some kv.2 else m id)
          m0) id = some v → P v := by
  intro kvs
  induction kvs with
  | nil => intro m0 _ hm0 id v hv; exact hm0 id v hv
  | cons kv kvs ih =>
    intro m0 hkv hm0 id v
    rw [List.foldl_cons]
    refine ih _ (fun kv2 h2 => hkv kv2 (List.mem_cons_of_mem _ h2)) ?_ id v
    intro id2 v2 h2
    simp only [] at h2
    by_cases heq : id2 = kv.1
    · rw [if_pos heq] at h2
      injection h2 with h3
      exact h3 ▸ hkv kv (List.mem_cons_self _ _)
    · rw [if_neg heq] at h2
      exact hm0 id2 v2 h2

/-- C9, amended: every simulated intensity is an integer in `[10, 90)`
(hence within 0-100); a manual override stores `parseInt(value) || 0`
under the path id and takes precedence over whatever was stored there,
but is itself not confined to 0-100. -/
theorem intensity_simulated_range_and_override_precedence :
    (∀ (pathsData : List Path) (rnd : ℕ → ℚ),
      (∀ n, 0 ≤ rnd n ∧ rnd n < 1) →
      ∀ id v, detectPathVehicleIntensities pathsData rnd id = some v →
        10 ≤ v ∧ v < 90) ∧
    (∀ (pathId : ℕ) (value : String) (prev : ℕ → Option ℤ),
      handleVehicleIntensityChange pathId value prev pathId =
        some (jsParseIntOr0 value)) := by
  constructor
  · intro pathsData rnd hr id v hv
    unfold detectPathVehicleIntensities jsMapIdx at hv
    refine @foldl_update_preserves (fun x => 10 ≤ x ∧ x < 90) _ _ ?_ ?_ id v hv
    · intro kv hkv
      obtain ⟨i, p, _, rfl⟩ := jsMapIdxFrom_mem hkv
      obtain ⟨h0, h1⟩ := hr i
      constructor
      · have hfl : (0 : ℤ) ≤ ⌊rnd i * 80⌋ :=
          Int.floor_nonneg.mpr (mul_nonneg h0 (by norm_num))
        show (10 : ℤ) ≤ ⌊rnd i * 80⌋ + 10
        omega
      · have hfl : ⌊rnd i * 80⌋ < 80 := by
          rw [Int.floor_lt]
          push_cast
          nlinarith
        show ⌊rnd i * 80⌋ + 10 < 90
        omega
    · intro id2 v2 h2
      exact Option.noConfusion h2
  · intro pathId value prev
    unfold handleVehicleIntensityChange
    simp

/-- C9, counterexample: typing 150 into the manual override stores the
intensity 150, which does not lie within the claimed 0-100 range. -/
theorem intensity_manual_override_cex :
    handleVehicleIntensityChange 1 "150" (fun _ => some 50) 1 = some 150 ∧
    ¬((150 : ℤ) ≤ 100) := by
  decide

/-- Reduction of `detectVehicleAndAllocate` on the no-empty-slots failure
branch. -/
theorem detectVehicleAndAllocate_no_empty {α : Type} [LinearOrder α]
    (st : SessionState α) (vr : VehicleDetection) (jit ext : ℕ → ℚ)
    (himg : st.vehicleImage ≠ none)
    (hempty : st.detectedSlots.filter (fun slot => slot.status == "empty") = []) :
    detectVehicleAndAllocate st vr jit ext =
      { st with
        isProcessing := false
        error := "No empty slots available"
        detectedVehicleType := some vr } := by
  unfold detectVehicleAndAllocate
  rw [if_neg himg]
  simp [hempty]

/-- C6: with no empty slot at allocation time, the step reports the
explicit no-empty-slots error, selects no slot (the allocated slot is left
untouched), and the session stays resettable to the initial state. -/
theorem allocation_failure_flow {α : Type} [LinearOrder α]
    (st : SessionState α) (vr : VehicleDetection) (jit ext : ℕ → ℚ)
    (himg : st.vehicleImage ≠ none)
    (hempty : st.detectedSlots.filter (fun slot => slot.status == "empty") = []) :
    (detectVehicleAndAllocate st vr jit ext).error = "No empty slots available" ∧
    (detectVehicleAndAllocate st vr jit ext).allocatedSlot = st.allocatedSlot ∧
    resetSystem (detectVehicleAndAllocate st vr jit ext) =
      (initialSessionState : SessionState α) := by
  rw [detectVehicleAndAllocate_no_empty st vr jit ext himg hempty]
  exact ⟨rfl, rfl, rfl⟩

/-- C10: on the same failure the vehicle-detection result has already been
committed to the session state, while the allocated slot and the path list
keep their prior values. -/
theorem vehicle_type_committed_on_failure {α : Type} [LinearOrder α]
    (st : SessionState α) (vr : VehicleDetection) (jit ext : ℕ → ℚ)
    (himg : st.vehicleImage ≠ none)
    (hempty : st.detectedSlots.filter (fun slot => slot.status == "empty") = []) :
    (detectVehicleAndAllocate st vr jit ext).detectedVehicleType = some vr ∧
    (detectVehicleAndAllocate st vr jit ext).allocatedSlot = st.allocatedSlot ∧
    (detectVehicleAndAllocate st vr jit ext).pathsData = st.pathsData := by
  rw [detectVehicleAndAllocate_no_empty st vr jit ext himg hempty]
  exact ⟨rfl, rfl, rfl⟩

/-! ## Concrete inputs for witnesses -/

/-- A concrete empty slot. -/
def exampleSlot : Slot ℚ :=
  { slot_number := 1, status := "empty", row := 0, col := 0, x := 100, y := 50,
    width := 40, height := 80, confidence := 90, original_class := "empty",
    is_corner := true, is_edge := true, distance_from_entrance := 50 }

/-- A concrete occupied slot. -/
def exampleOccupiedSlot : Slot ℚ :=
  { exampleSlot with status := "occupied", original_class := "car" }

/-- A concrete raw detection. -/
def exampleDetection : Detection :=
  { x := 100, y := 50, width := 40, height := 80, confidence := 90,
    class_label := "empty" }

/-- A concrete vehicle-detection result. -/
def exampleVehicle : VehicleDetection :=
  { vehicle_type := "car", confidence := 95, x := 0, y := 0, width := 10,
    height := 10, original_class := "car" }

/-- A session state right before a vehicle detection with all slots
occupied. -/
def exampleSession : SessionState ℚ :=
  { initialSessionState with
    vehicleImage := some "vehicle.jpg"
    detectedSlots := [exampleOccupiedSlot] }

/-! ## Witnesses -/

/-- Witness for C1: the allocation theorem applied to category car and the
one-element empty-slot list. -/
theorem allocation_policy_witness :
    (("car" = "car" ∨ "car" = "motorcycle" ∨ "car" = "truck" ∨
        "car" = "bus" ∨ "car" = "van") ∧
      ([exampleSlot] : List (Slot ℚ)) ≠ [] ∧
      (∀ s ∈ [exampleSlot], s.status = "empty")) ∧
    (∃ r, allocateSlot "car" [exampleSlot] = some r ∧
      ("car" = "car" →
        isFirstMinBy (fun s => s.distance_from_entrance) [exampleSlot] r) ∧
      ("car" = "motorcycle" →
        isFirstMaxBy (fun s => s.distance_from_entrance) [exampleSlot] r) ∧
      (("car" = "truck" ∨ "car" = "bus" ∨ "car" = "van") →
        ([exampleSlot].filter (fun s => s.is_corner || s.is_edge) = [] →
          [exampleSlot].head? = some r) ∧
        ([exampleSlot].filter (fun s => s.is_corner || s.is_edge) ≠ [] →
          isFirstMaxBy (fun s => s.distance_from_entrance)
            ([exampleSlot].filter (fun s => s.is_corner || s.is_edge)) r))) :=
  ⟨⟨Or.inl rfl, List.cons_ne_nil _ _,
    fun s hs => by rw [List.mem_singleton.mp hs]; rfl⟩,
    allocation_policy_per_category "car" [exampleSlot] (Or.inl rfl)
      (List.cons_ne_nil _ _)
      (fun s hs => by rw [List.mem_singleton.mp hs]; rfl)⟩

/-- Witness for C2: the selection theorem applied to the two example
paths. -/
theorem path_score_min_selection_witness :
    (([examplePath1, examplePath2] : List Path) ≠ [] ∧
      (∀ p ∈ [examplePath1, examplePath2], (exampleIntens p.id).isSome)) ∧
    (∃ best,
      calculateOptimalPath [examplePath1, examplePath2] exampleIntens =
        some best ∧
      isFirstMinBy (fun p => p.score.getD 0)
        (scorePaths [examplePath1, examplePath2] exampleIntens) best ∧
      ∀ q ∈ scorePaths [examplePath1, examplePath2] exampleIntens,
        q.score = some (q.distance * 0.1 + q.tJunctions * 0.6 +
          q.vehicleIntensity.getD 0 * 0.3)) :=
  ⟨⟨List.cons_ne_nil _ _, by decide⟩,
    path_score_min_selection [examplePath1, examplePath2] exampleIntens
      (List.cons_ne_nil _ _) (by decide)⟩

/-- Witness for C5: the slot-normalizer theorem applied to a one-element
batch. -/
theorem slot_normalizer_witness :
    ([exampleDetection] : List Detection) ≠ [] ∧
    (∃ res, detectParkingSlots [exampleDetection] none = Except.ok res ∧
      res.slots.map Slot.slot_number =
        List.range' 1 ([exampleDetection] : List Detection).length ∧
      (∀ s ∈ res.slots,
        s.row = (s.slot_number - 1) / 8 ∧ s.col = (s.slot_number - 1) % 8) ∧
      (∀ res2, detectParkingSlots [exampleDetection] none = Except.ok res2 →
        res2.slots = res.slots)) :=
  ⟨List.cons_ne_nil _ _,
    slot_normalizer_contiguous [exampleDetection] none (List.cons_ne_nil _ _)⟩

/-- Witness for C6: the failure-flow theorem applied to a session whose
only slot is occupied. -/
theorem allocation_failure_flow_witness :
    (exampleSession.vehicleImage ≠ none ∧
      exampleSession.detectedSlots.filter
        (fun slot => slot.status == "empty") = []) ∧
    ((detectVehicleAndAllocate exampleSession exampleVehicle
        (fun _ => 0) (fun _ => 0)).error = "No empty slots available" ∧
      (detectVehicleAndAllocate exampleSession exampleVehicle
        (fun _ => 0) (fun _ => 0)).allocatedSlot =
          exampleSession.allocatedSlot ∧
      resetSystem (detectVehicleAndAllocate exampleSession exampleVehicle
        (fun _ => 0) (fun _ => 0)) = (initialSessionState : SessionState ℚ)) :=
  ⟨⟨by simp [exampleSession], rfl⟩,
    allocation_failure_flow exampleSession exampleVehicle
      (fun _ => 0) (fun _ => 0) (by simp [exampleSession]) rfl⟩

/-- Witness for C8: the path-generator theorem applied to a row-0 slot and
the constant-zero random streams. -/
theorem path_candidate_generator_witness :
    ((∀ n : ℕ, 0 ≤ (0 : ℚ) ∧ (0 : ℚ) < 1) ∧
      (∀ n : ℕ, 0 ≤ (0 : ℚ) ∧ (0 : ℚ) < 1)) ∧
    ((generatePathsToSlot exampleSlot (fun _ => 0) (fun _ => 0)).length =
        (if exampleSlot.row ≤ 1 then 4 else 3) ∧
      ∀ (i : ℕ)
        (h : i < (generatePathsToSlot exampleSlot (fun _ => 0) (fun _ => 0)).length),
        65 + 25 * (i : ℚ) ≤
          ((generatePathsToSlot exampleSlot (fun _ => 0) (fun _ => 0)).get
            ⟨i, h⟩).distance ∧
        ((generatePathsToSlot exampleSlot (fun _ => 0) (fun _ => 0)).get
          ⟨i, h⟩).distance < 65 + 25 * (i : ℚ) + 20 ∧
        (((generatePathsToSlot exampleSlot (fun _ => 0) (fun _ => 0)).get
            ⟨i, h⟩).tJunctions = 1 + (i : ℚ) ∨
          ((generatePathsToSlot exampleSlot (fun _ => 0) (fun _ => 0)).get
            ⟨i, h⟩).tJunctions = 2 + (i : ℚ)) ∧
        ((generatePathsToSlot exampleSlot (fun _ => 0) (fun _ => 0)).get
          ⟨i, h⟩).vehicleIntensity = none ∧
        ((generatePathsToSlot exampleSlot (fun _ => 0) (fun _ => 0)).get
          ⟨i, h⟩).score = none) :=
  ⟨⟨fun _ => ⟨le_refl 0, by norm_num⟩, fun _ => ⟨le_refl 0, by norm_num⟩⟩,
    path_candidate_generator_shape exampleSlot (fun _ => 0) (fun _ => 0)
      (fun _ => ⟨le_refl 0, by norm_num⟩) (fun _ => ⟨le_refl 0, by norm_num⟩)⟩

/-- Witness for C9: the amended intensity theorem evaluated on a
one-element path list with the constant-zero stream, and a manual override
of path 2. -/
theorem intensity_witness :
    ((∀ n : ℕ, 0 ≤ (0 : ℚ) ∧ (0 : ℚ) < 1) ∧
      detectPathVehicleIntensities [examplePath1] (fun _ => 0) 1 = some 10) ∧
    (10 ≤ (10 : ℤ) ∧ (10 : ℤ) < 90) ∧
    handleVehicleIntensityChange 2 "42" (fun _ => none) 2 =
      some (jsParseIntOr0 "42") := by
  have hr : ∀ n : ℕ, 0 ≤ (0 : ℚ) ∧ (0 : ℚ) < 1 :=
    fun _ => ⟨le_refl 0, by norm_num⟩
  have hd : detectPathVehicleIntensities [examplePath1] (fun _ => 0) 1 =
      some 10 := by
    simp [detectPathVehicleIntensities, jsMapIdx, jsMapIdxFrom, examplePath1]
  exact ⟨⟨hr, hd⟩,
    intensity_simulated_range_and_override_precedence.1 [examplePath1]
      (fun _ => 0) hr 1 10 hd,
    intensity_simulated_range_and_override_precedence.2 2 "42" (fun _ => none)⟩

/-- Witness for C10: the frame-effect theorem applied to the same failing
session. -/
theorem vehicle_type_committed_witness :
    (exampleSession.vehicleImage ≠ none ∧
      exampleSession.detectedSlots.filter
        (fun slot => slot.status == "empty") = []) ∧
    ((detectVehicleAndAllocate exampleSession exampleVehicle
        (fun _ => 0) (fun _ => 0)).detectedVehicleType = some exampleVehicle ∧
      (detectVehicleAndAllocate exampleSession exampleVehicle
        (fun _ => 0) (fun _ => 0)).allocatedSlot =
          exampleSession.allocatedSlot ∧
      (detectVehicleAndAllocate exampleSession exampleVehicle
        (fun _ => 0) (fun _ => 0)).pathsData = exampleSession.pathsData) :=
  ⟨⟨by simp [exampleSession], rfl⟩,
    vehicle_type_committed_on_failure exampleSession exampleVehicle
      (fun _ => 0) (fun _ => 0) (by simp [exampleSession]) rfl⟩

end SmartParking
